import Mathlib

/-!
Verification development for the GodCoin ledger core.

This file gives a shallow embedding in Lean 4 of the parts of the
repository that the checked properties concern:

* the script engine of
  src/crates/godcoin/src/godcoin/script/engine.rs, embedded at the level
  of decoded operation frames (the byte-level operand decoding of
  consume_op is a bijective framing layer and is elided; each OpFrame
  constructor corresponds to one decoded operation);
* the key-value index of src/crates/godcoin/src/blockchain/index.rs,
  embedded with the RocksDB store replaced by association lists and
  Option-valued singleton keys (the big-endian byte codec of the store
  is a bijective layer and is elided);
* the fixed-precision asset codec of
  src/crates/godcoin/src/godcoin/asset/mod.rs, embedded over lists of
  characters (the inputs are ASCII, so Rust byte positions coincide with
  character positions);
* small models written from the specification text for behaviour whose
  implementation is not part of the sources at hand (the v2 script
  engine's transfer/destroy log materialization and the transaction
  verification driver); these are marked `Modelled from the spec:` in
  their doc comments.

Machine integers: u64 values are embedded as Nat (with explicit
hypotheses where u64 subtraction could underflow), i64 amounts as Int
with explicit bounds checks where the code checks them, and u8 fields as
Nat.
-/

namespace Godcoin

/-! ### Signature checking (ScriptEngine::check_sigs, engine.rs lines 236-266)

Public keys are embedded as naturals.  A signature pair carries its
public key and a boolean `valid` that abbreviates the result of
`key.verify(&buf, &pair.signature)` against the canonical transaction
encoding `buf`; within one engine evaluation `buf` is a fixed byte
string determined by the transaction, so signature verification is a
function of the pair alone and is faithfully embedded as a field. -/

structure SigPair where
  pubKey : Nat
  valid : Bool
  deriving DecidableEq, Repr

/-- Embeds the inner `while let Some(key) = key_iter.next()` search of
`check_sigs`: advance the single forward key iterator until it yields a
key equal to `target`, returning the keys remaining after the match, or
none when the iterator is exhausted without a match (in which case the
iterator stays exhausted for all later pairs). -/
def consumeKeys (keys : List Nat) (target : Nat) : Option (List Nat) :=
  match keys with
  | [] => none
  | k :: ks => if k = target then some ks else consumeKeys ks target

/-- Embeds the labelled `'pair_loop` of `check_sigs`: scan the signature
pairs in order, maintaining the signature-pair cursor `pos`, the
remaining keys of the single forward key iterator, and the count `valid`
of successful verifications.  A matched key with a failing signature is
the `break 'pair_loop` path; a pair whose key finds no match exhausts
the key iterator and the scan continues over the remaining pairs.
Returns the boolean result together with the final cursor position. -/
def scanPairs (threshold : Nat) (keys : List Nat) (pairs : List SigPair)
    (pos valid : Nat) : Bool × Nat :=
  match pairs with
  | [] => (false, pos)
  | p :: rest =>
    match consumeKeys keys p.pubKey with
    | none => scanPairs threshold [] rest (pos + 1) valid
    | some ks =>
      if p.valid then
        if valid + 1 ≥ threshold then (true, pos + 1)
        else scanPairs threshold ks rest (pos + 1) (valid + 1)
      else (false, pos + 1)

/-- Embeds `ScriptEngine::check_sigs` (engine.rs lines 236-266).  The
`keys` list is the popped key list in pop order; `pos` is the engine's
`sig_pair_pos` cursor.  Returns the boolean result together with the
updated cursor. -/
def check_sigs (threshold : Nat) (keys : List Nat) (pairs : List SigPair)
    (pos : Nat) : Bool × Nat :=
  if threshold = 0 then (true, pos)
  else if threshold > keys.length ∨ pos ≥ pairs.length then (false, pos)
  else scanPairs threshold keys (pairs.drop pos) pos 0

/-! ### The index (src/crates/godcoin/src/blockchain/index.rs) -/

/-- Value of `TX_EXPIRY_ADJUSTMENT` (index.rs line 27). -/
def TX_EXPIRY_ADJUSTMENT : Nat := 30

/-- Embeds `Indexer::purge_expired_txids` (index.rs lines 133-146) on the
`tx_expiry` column family, modelled as an association list from TxId
(a natural) to the expiry timestamp.  The code computes
`current_time = get_epoch_time() - TX_EXPIRY_ADJUSTMENT`, collects every
entry with `expiry < current_time` into a delete batch and commits the
batch; the surviving set is exactly the filter below.  `now` stands for
`get_epoch_time()`; the u64 subtraction requires
`TX_EXPIRY_ADJUSTMENT ≤ now`. -/
def purge_expired_txids (now : Nat) (entries : List (Nat × Nat)) :
    List (Nat × Nat) :=
  entries.filter (fun kv => ¬ kv.2 < now - TX_EXPIRY_ADJUSTMENT)

/-- Embeds `Indexer::get_chain_height` (index.rs lines 79-84): the stored
singleton is decoded when present and defaults to 0 when the key is
absent. -/
def get_chain_height (stored : Option Nat) : Nat :=
  match stored with
  | some h => h
  | none => 0

/-- Asset amounts in minor units (a signed 64-bit integer in the
source). -/
structure Asset where
  amount : Int
  deriving DecidableEq, Repr

/-- Mirrors `Asset::default()` (derived `Default` over `i64`). -/
def Asset.default : Asset := ⟨0⟩

/-- Embeds `Indexer::get_token_supply` (index.rs lines 112-121): the
stored singleton is decoded when present and defaults to
`Asset::default()` when the key is absent. -/
def get_token_supply (stored : Option Asset) : Asset :=
  match stored with
  | some a => a
  | none => Asset.default

/-- Embeds `Indexer::has_txid` (index.rs lines 123-126): membership in
the `tx_expiry` column family. -/
def has_txid (entries : List (Nat × Nat)) (id : Nat) : Bool :=
  (entries.lookup id).isSome

/-- Embeds `Indexer::insert_txid` (index.rs lines 128-131): a RocksDB
`put`, i.e. insert-or-overwrite of the key. -/
def insert_txid (entries : List (Nat × Nat)) (id : Nat) (expiry : Nat) :
    List (Nat × Nat) :=
  (id, expiry) :: entries.filter (fun kv => kv.1 ≠ id)

/-! ### WriteBatch::commit (index.rs lines 149-215) -/

/-- One operation added to the RocksDB write batch by
`WriteBatch::commit`.  The payloads are reduced to the logical values;
accounts are identified by their id (the serialized record is elided). -/
inductive IndexOp where
  | putBlockPos (height pos : Nat)
  | putChainHeight (height : Nat)
  | putOwner
  | putTokenSupply (supply : Asset)
  | putAccount (id : Nat)
  deriving DecidableEq, Repr

/-- The in-memory `WriteBatch` structure (index.rs lines 149-156); the
two HashMaps are embedded as association lists and the owner transaction
payload is reduced to its presence. -/
structure WriteBatch where
  blockBytePos : List (Nat × Nat)
  chainHeight : Option Nat
  owner : Bool
  accounts : List Nat
  tokenSupply : Option Asset

/-- Embeds `WriteBatch::commit` (index.rs lines 170-215): the sequence of
operations added to the single RocksDB write batch, in the order the
source adds them — block byte positions, then `chain_height`, then
`network_owner`, then `token_supply`, then the account records — before
the one `db.write(batch)` call commits them atomically. -/
def WriteBatch.commitOps (wb : WriteBatch) : List IndexOp :=
  (wb.blockBytePos.map fun hp => IndexOp.putBlockPos hp.1 hp.2)
    ++ (match wb.chainHeight with
        | some h => [IndexOp.putChainHeight h]
        | none => [])
    ++ (if wb.owner then [IndexOp.putOwner] else [])
    ++ (match wb.tokenSupply with
        | some s => [IndexOp.putTokenSupply s]
        | none => [])
    ++ (wb.accounts.map fun id => IndexOp.putAccount id)

/-- Classifies a batch operation as a chain-height write. -/
def IndexOp.isChainHeight : IndexOp → Bool
  | .putChainHeight _ => true
  | _ => false

/-- Classifies a batch operation as a block-byte-position write. -/
def IndexOp.isBlockPos : IndexOp → Bool
  | .putBlockPos _ _ => true
  | _ => false

/-- Classifies a batch operation as an account-record write. -/
def IndexOp.isAccount : IndexOp → Bool
  | .putAccount _ => true
  | _ => false

/-! ### The script engine driver (ScriptEngine::eval, engine.rs lines 44-151)

The engine is embedded at the level of decoded operation frames
(`OpFrame` in the source); `consume_op`'s byte decoding is a bijective
framing layer and is elided.  The stack type lives in a sibling module
that is not among the sources at hand; its operations are pinned by the
specification (wrong-type pops fail `InvalidItemOnStack`, stack depth is
bounded at 64 failing `StackOverflow`) and by the engine's tests. -/

inductive EvalErrType where
  | UnexpectedEOF
  | InvalidItemOnStack
  | StackOverflow
  deriving DecidableEq, Repr

/-- A decoded operation frame of the engine under evaluation (the
`OpFrame` enum used by engine.rs; thresholds and key counts are u8). -/
inductive Frame where
  | ffalse
  | ftrue
  | pubKey (k : Nat)
  | opNot
  | opIf
  | opElse
  | opEndIf
  | opReturn
  | opCheckSig
  | opCheckSigFastFail
  | opCheckMultiSig (threshold keyCount : Nat)
  | opCheckMultiSigFastFail (threshold keyCount : Nat)
  deriving DecidableEq, Repr

/-- The evaluation stack; the head of the list is the top of the
stack. -/
abbrev Stack := List Frame

/-- Modelled from the spec: `Stack::pop_bool` of the engine's stack
module (not among the sources at hand).  A `True`/`False` frame on top
pops to its boolean; any other top, or an empty stack, fails
`InvalidItemOnStack` (spec section 4.C; pinned by the engine test
`fail_invalid_stack_on_return`). -/
def popBool (st : Stack) : Except EvalErrType (Bool × Stack) :=
  match st with
  | Frame.ftrue :: rest => .ok (true, rest)
  | Frame.ffalse :: rest => .ok (false, rest)
  | _ => .error .InvalidItemOnStack

/-- Modelled from the spec: `Stack::pop_pubkey` of the engine's stack
module (not among the sources at hand); a public-key frame on top pops
to the key, anything else fails `InvalidItemOnStack`. -/
def popPubkey (st : Stack) : Except EvalErrType (Nat × Stack) :=
  match st with
  | Frame.pubKey k :: rest => .ok (k, rest)
  | _ => .error .InvalidItemOnStack

/-- The maximum stack depth (spec section 4.C: stack depth ≤ 64). -/
def MAX_STACK_DEPTH : Nat := 64

/-- Modelled from the spec: `Stack::push` of the engine's stack module
(not among the sources at hand); pushing beyond the depth bound fails
`StackOverflow` (spec section 4.C). -/
def pushFrame (f : Frame) (st : Stack) : Except EvalErrType Stack :=
  if st.length ≥ MAX_STACK_DEPTH then .error .StackOverflow
  else .ok (f :: st)

/-- Converts a boolean to the frame pushed for it (the source pushes a
bool through `From<bool> for OpFrame`). -/
def Frame.ofBool (b : Bool) : Frame :=
  if b then Frame.ftrue else Frame.ffalse

/-- Embeds the `pop_multisig_keys!` macro of `eval` (engine.rs lines
45-53): pop `n` public keys, collecting them in pop order. -/
def popKeys (n : Nat) (st : Stack) : Except EvalErrType (List Nat × Stack) :=
  match n with
  | 0 => .ok ([], st)
  | n + 1 =>
    match popPubkey st with
    | .error e => .error e
    | .ok (k, st') =>
      match popKeys n st' with
      | .error e => .error e
      | .ok (ks, st'') => .ok (k :: ks, st'')

/-- Embeds `consume_op_until` with the branch-skipping matcher closure
used by `OpIf` and `OpElse` (engine.rs lines 66-107, 153-169): consume
frames until the matcher breaks, tracking the `if_marker` depth counter
against the saved `req_if_marker`, failing `UnexpectedEOF` when the
frames run out.  Returns the remaining frames and the updated
counter. -/
def skipUntil (ops : List Frame) (ifMarker req : Int) :
    Except EvalErrType (List Frame × Int) :=
  match ops with
  | [] => .error .UnexpectedEOF
  | op :: rest =>
    match op with
    | Frame.opIf => skipUntil rest (ifMarker + 1) req
    | Frame.opElse =>
      if ifMarker = req then .ok (rest, ifMarker)
      else skipUntil rest ifMarker req
    | Frame.opEndIf =>
      if ifMarker = req then .ok (rest, ifMarker - 1)
      else skipUntil rest (ifMarker - 1) req
    | _ => skipUntil rest ifMarker req

theorem skipUntil_length_lt (ops : List Frame) (ifMarker req : Int)
    (rest : List Frame) (m : Int)
    (h : skipUntil ops ifMarker req = .ok (rest, m)) :
    rest.length < ops.length := by
  induction ops generalizing ifMarker req with
  | nil => simp [skipUntil] at h
  | cons op tail ih =>
    cases op <;> simp only [skipUntil] at h
    case opIf =>
      exact Nat.lt_trans (ih _ _ h) (Nat.lt_succ_self _)
    case opElse =>
      split at h
      · cases h
        exact Nat.lt_succ_self _
      · exact Nat.lt_trans (ih _ _ h) (Nat.lt_succ_self _)
    case opEndIf =>
      split at h
      · cases h
        exact Nat.lt_succ_self _
      · exact Nat.lt_trans (ih _ _ h) (Nat.lt_succ_self _)
    all_goals exact Nat.lt_trans (ih _ _ h) (Nat.lt_succ_self _)

/-- How the `while let Some(op) = self.consume_op()?` loop of `eval`
exits: `earlyFalse` is the `return Ok(false)` of the FastFail opcodes,
which bypasses the final `pop_bool`; `finished` is reaching
end-of-frames or `OpReturn`, after which the driver pops the boolean
result. -/
inductive EvalExit where
  | earlyFalse (st : Stack) (sigPos : Nat)
  | finished (st : Stack) (sigPos : Nat)
  deriving DecidableEq, Repr

/-- Embeds the main loop of `ScriptEngine::eval` (engine.rs lines
55-147), one constructor case per `match op` arm, including the
`if if_marker > 0 { UnexpectedEOF }` check at loop exit.  State carried
by the engine: the stack, the `sig_pair_pos` cursor, the `if_marker`
depth counter and the `ignore_else` flag. -/
def evalLoop (ops : List Frame) (st : Stack) (pairs : List SigPair)
    (sigPos : Nat) (ifMarker : Int) (ignoreElse : Bool) :
    Except EvalErrType EvalExit :=
  match ops with
  | [] =>
    if ifMarker > 0 then .error .UnexpectedEOF
    else .ok (.finished st sigPos)
  | op :: rest =>
    match op with
    | Frame.opNot =>
      match popBool st with
      | .error e => .error e
      | .ok (b, st') =>
        match pushFrame (Frame.ofBool (!b)) st' with
        | .error e => .error e
        | .ok st'' => evalLoop rest st'' pairs sigPos ifMarker ignoreElse
    | Frame.opIf =>
      match popBool st with
      | .error e => .error e
      | .ok (b, st') =>
        if b then evalLoop rest st' pairs sigPos (ifMarker + 1) true
        else
          match h : skipUntil rest (ifMarker + 1) (ifMarker + 1) with
          | .error e => .error e
          | .ok (rest', m) => evalLoop rest' st' pairs sigPos m false
    | Frame.opElse =>
      if ignoreElse then
        match h : skipUntil rest ifMarker ifMarker with
        | .error e => .error e
        | .ok (rest', m) => evalLoop rest' st pairs sigPos m ignoreElse
      else evalLoop rest st pairs sigPos ifMarker ignoreElse
    | Frame.opEndIf => evalLoop rest st pairs sigPos (ifMarker - 1) ignoreElse
    | Frame.opReturn => .ok (.finished st sigPos)
    | Frame.opCheckSig =>
      match popPubkey st with
      | .error e => .error e
      | .ok (k, st') =>
        let res := check_sigs 1 [k] pairs sigPos
        match pushFrame (Frame.ofBool res.1) st' with
        | .error e => .error e
        | .ok st'' => evalLoop rest st'' pairs res.2 ifMarker ignoreElse
    | Frame.opCheckSigFastFail =>
      match popPubkey st with
      | .error e => .error e
      | .ok (k, st') =>
        let res := check_sigs 1 [k] pairs sigPos
        if res.1 then evalLoop rest st' pairs res.2 ifMarker ignoreElse
        else .ok (.earlyFalse st' res.2)
    | Frame.opCheckMultiSig t kc =>
      match popKeys kc st with
      | .error e => .error e
      | .ok (keys, st') =>
        let res := check_sigs t keys pairs sigPos
        match pushFrame (Frame.ofBool res.1) st' with
        | .error e => .error e
        | .ok st'' => evalLoop rest st'' pairs res.2 ifMarker ignoreElse
    | Frame.opCheckMultiSigFastFail t kc =>
      match popKeys kc st with
      | .error e => .error e
      | .ok (keys, st') =>
        let res := check_sigs t keys pairs sigPos
        if res.1 then evalLoop rest st' pairs res.2 ifMarker ignoreElse
        else .ok (.earlyFalse st' res.2)
    | f => -- push-value frames fall to the stack push arm
      match pushFrame f st with
      | .error e => .error e
      | .ok st' => evalLoop rest st' pairs sigPos ifMarker ignoreElse
  termination_by ops.length
  decreasing_by
    all_goals simp_wf
    all_goals first
      | exact Nat.lt_succ_self _
      | exact Nat.lt_trans (skipUntil_length_lt _ _ _ _ _ h) (Nat.lt_succ_self _)

/-- Embeds `ScriptEngine::eval` (engine.rs lines 44-151): run the loop
from position 0 on an empty stack; an early FastFail exit returns
`false` directly, a normal exit pops the boolean result off the stack
(`map_err_type!(self, self.stack.pop_bool())`, line 150).  Returns the
result together with the stack left behind after the driver's pop and
the final `sig_pair_pos`. -/
def eval (ops : List Frame) (pairs : List SigPair) :
    Except EvalErrType (Bool × Stack × Nat) :=
  match evalLoop ops [] pairs 0 0 false with
  | .error e => .error e
  | .ok (.earlyFalse st p) => .ok (false, st, p)
  | .ok (.finished st p) =>
    match popBool st with
    | .error e => .error e
    | .ok (b, st') => .ok (b, st', p)

/-! ### Further definitions for the index batch claims -/

/-- Rank of a batch operation in the order `WriteBatch::commit` adds the
operation groups to the batch. -/
def IndexOp.rank : IndexOp → Nat
  | .putBlockPos _ _ => 0
  | .putChainHeight _ => 1
  | .putOwner => 2
  | .putTokenSupply _ => 3
  | .putAccount _ => 4

/-- The ordering property asserted by claim C3: within the committed
batch every account update precedes every chain-height write. -/
def accountsBeforeHeight (ops : List IndexOp) : Prop :=
  ∀ i j : Fin ops.length, (ops.get i).isAccount = true →
    (ops.get j).isChainHeight = true → i < j

instance (ops : List IndexOp) : Decidable (accountsBeforeHeight ops) := by
  unfold accountsBeforeHeight
  infer_instance

/-- A batch holding one block byte position, the chain height and one
account record — the shape every applied block produces. -/
def commitBatchExample : WriteBatch := ⟨[(1, 327)], some 1, false, [7], none⟩

/-! ### The asset string codec (asset/mod.rs)

`Asset::to_string` and `Asset::from_str` are embedded over lists of
characters; the inputs are ASCII so Rust byte indices coincide with
character indices.  Rust's decimal integer printing and `i64` parsing
are embedded explicitly (`natToChars`, `parseI64`). -/

/-- Value of `MAX_STR_LEN` (asset/mod.rs line 11). -/
def MAX_STR_LEN : Nat := 26

/-- Value of `MAX_PRECISION` (asset/mod.rs line 12). -/
def MAX_PRECISION : Nat := 4

/-- Fuelled decimal digit accumulator for `natToChars`; the fuel `n + 1`
always suffices. -/
def natToCharsAux : Nat → Nat → List Char → List Char
  | 0, _, acc => acc
  | fuel + 1, n, acc =>
    let d := Char.ofNat (48 + n % 10)
    if n < 10 then d :: acc
    else natToCharsAux fuel (n / 10) (d :: acc)

/-- Decimal digits of a natural, most significant first (Rust's
`u64` formatting). -/
def natToChars (n : Nat) : List Char := natToCharsAux (n + 1) n []

/-- Rust's `i64::to_string`: an optional leading minus sign followed by
the decimal digits. -/
def intToChars (i : Int) : List Char :=
  if i < 0 then '-' :: natToChars i.natAbs else natToChars i.toNat

/-- Rust's `String::insert_str` / `String::insert` at index `k`. -/
def insertAt (k : Nat) (ins l : List Char) : List Char :=
  l.take k ++ ins ++ l.drop k

/-- Embeds `Asset::to_string` (asset/mod.rs lines 93-112) on the i64
`amount` field: stringify the amount, then place the decimal point by
the three length cases of the source (shorter than `MAX_PRECISION`,
exactly `MAX_PRECISION`, longer), and append the currency suffix. -/
def asset_to_string (amount : Int) : List Char :=
  let s := intToChars amount
  let len := s.length
  let s2 :=
    if len < MAX_PRECISION then
      let start := if amount < 0 then 1 else 0
      let diff := MAX_PRECISION - len + start
      insertAt (start + 2) (List.replicate diff '0') (insertAt start ['0', '.'] s)
    else if len = MAX_PRECISION then '0' :: '.' :: s
    else insertAt (len - MAX_PRECISION) ['.'] s
  s2 ++ (' ' :: ['G', 'R', 'A', 'E', 'L'])

/-- The error kinds of `AssetError` (asset/error.rs). -/
inductive AssetErrorKind where
  | InvalidAmount
  | InvalidFormat
  | InvalidAssetType
  | StrTooLarge
  deriving DecidableEq, Repr

deriving instance DecidableEq for Except

/-- Rust's `str::trim`: strip whitespace from both ends. -/
def trimChars (s : List Char) : List Char :=
  ((s.dropWhile Char.isWhitespace).reverse.dropWhile Char.isWhitespace).reverse

/-- The amount token of `from_str`: the part of the trimmed input before
the first space (the first element of `s.trim().splitn(2, ' ')`). -/
def amountPart (s : List Char) : List Char :=
  (trimChars s).takeWhile (fun c => c != ' ')

/-- The second element of `s.trim().splitn(2, ' ')`: everything after
the first space, or none when the trimmed input has no space. -/
def restPart (s : List Char) : Option (List Char) :=
  match (trimChars s).dropWhile (fun c => c != ' ') with
  | [] => none
  | _ :: rest => some rest

/-- The `decimals` computation of `from_str` (asset/mod.rs lines
131-139): with `len = x.len() - 1`, the count is `len - pos` when the
dot is not the first character and `len` otherwise — in both cases the
number of characters after the first dot. -/
def decimalsOf (x : List Char) (pos : Nat) : Nat :=
  let len := x.length - 1
  if pos > 0 then len - pos else len

/-- Digit accumulator for `parseI64`; fails on any non-digit
character. -/
def parseNatDigitsAux : List Char → Nat → Option Nat
  | [], acc => some acc
  | c :: rest, acc =>
    if c.isDigit then parseNatDigitsAux rest (acc * 10 + (c.toNat - 48))
    else none

/-- Rust's `str::parse::<i64>()`: an optional sign followed by at least
one decimal digit, failing when the value leaves the i64 range. -/
def parseI64 (cs : List Char) : Option Int :=
  let signDigits : Bool × List Char :=
    match cs with
    | '-' :: r => (true, r)
    | '+' :: r => (false, r)
    | r => (false, r)
  match signDigits.2 with
  | [] => none
  | ds =>
    match parseNatDigitsAux ds 0 with
    | none => none
    | some n =>
      if signDigits.1 then
        if (n : Int) ≤ 2 ^ 63 then some (-(n : Int)) else none
      else if (n : Int) ≤ 2 ^ 63 - 1 then some (n : Int) else none

/-- Embeds `Asset::from_str` (asset/mod.rs lines 114-189), producing the
parsed i64 amount: reject inputs longer than `MAX_STR_LEN` with
`StrTooLarge`; split the trimmed input at the first space; require a
decimal point in the amount token with exactly `MAX_PRECISION`
characters after the first one; strip every dot and parse the remainder
as an i64 (`InvalidAmount` on failure); require the suffix token to be
exactly GRAEL (`InvalidAssetType` otherwise, `InvalidFormat` when
missing). -/
def asset_from_str (s : List Char) : Except AssetErrorKind Int :=
  if s.length > MAX_STR_LEN then .error .StrTooLarge
  else
    let x := amountPart s
    match x.findIdx? (fun c => c == '.') with
    | none => .error .InvalidAmount
    | some pos =>
      if decimalsOf x pos ≠ MAX_PRECISION then .error .InvalidAmount
      else
        match parseI64 (x.filter (fun c => c != '.')) with
        | none => .error .InvalidAmount
        | some amount =>
          match restPart s with
          | some r =>
            if r = ['G', 'R', 'A', 'E', 'L'] then .ok amount
            else .error .InvalidAssetType
          | none => .error .InvalidFormat

/-! ### Spec-modelled transaction verification and log materialization

The v2 script engine (function entry, OpTransfer/OpDestroy) and the
transaction verification driver live in crates whose sources are not
part of the files at hand; only their tests are.  The definitions below
are therefore written from the specification text and are marked as
such. -/

/-- Transaction validation error kinds (spec section 7). -/
inductive TxErr where
  | TxExpired
  | TxDupe
  deriving DecidableEq, Repr

/-- Modelled from the spec: `MAX_TX_DRIFT` of the verification driver,
whose defining module is not among the sources at hand; spec section 8
scenario 4 fixes it as 3000 ms (a tx with timestamp > now + 3000ms is
TxExpired). -/
def MAX_TX_DRIFT : Nat := 3000

/-- Modelled from the spec: the expiry window check of transaction
verification (spec section 4.D step 2), whose implementation is not
among the sources at hand: require `ts ≤ now + MAX_TX_DRIFT` and
`ts + expiryTime > now`, both failures reporting `TxExpired`.
`expiryTime` stands for the `TX_EXPIRY_TIME` constant, which the spec
does not fix numerically. -/
def tx_expiry_check (expiryTime ts now : Nat) : Option TxErr :=
  if ts > now + MAX_TX_DRIFT then some .TxExpired
  else if ts + expiryTime ≤ now then some .TxExpired
  else none

/-- Result of submitting a transaction to the mempool. -/
inductive BroadcastResult where
  | accepted
  | rejected (e : TxErr)
  deriving DecidableEq, Repr

/-- Modelled from the spec: the uniqueness step of broadcast (spec
sections 4.D step 3 and 4.H), whose implementation is not among the
sources at hand: a TxId already present in the indexer's expiry set is
rejected with `TxDupe`; on success the TxId is inserted into the expiry
set immediately.  The membership test and insertion are the embedded
`has_txid` / `insert_txid` of index.rs. -/
def broadcast_tx (entries : List (Nat × Nat)) (id expiry : Nat) :
    BroadcastResult × List (Nat × Nat) :=
  if has_txid entries id then (.rejected .TxDupe, entries)
  else (.accepted, insert_txid entries id expiry)

/-- A log entry of a transaction receipt (`LogEntry`, spec section 3). -/
inductive LogEntry where
  | transfer (dest : Nat) (amount : Int)
  | destroy (sink : Nat)
  deriving DecidableEq, Repr

/-- Result of materializing a destroy-carrying transfer transaction:
the receipt log, the balances after the block applies, and the
destroyed flag of the calling account. -/
structure DestroyOutcome where
  log : List LogEntry
  balances : Nat → Int
  fromDestroyed : Bool

/-- Modelled from the spec: log materialization for a transfer
transaction whose script emits explicit transfers and then destroys the
calling account (spec section 4.C, log materialization paragraph, and
section 8 scenario 6), whose implementation is not among the sources at
hand.  `amount` is the transaction's declared amount, the budget the
script draws on (`OpLoadAmt`/`OpLoadRemAmt`, spec section 4.C).  The
explicit transfers are validated (non-negative amounts, self-sends
rejected, sum at most the declared amount, declared amount plus fee
covered by the balance), `Destroy(sink)` is logged after the explicit
transfers (the sink is recorded, as in the repository's receipt-log
test), and a final synthetic `Transfer(sink, unusedAmt)` with
`unusedAmt = amount − transferred` — the portion of the declared amount
no prior `OpTransfer` disbursed — is appended when it is positive, as
frozen by the repository's test destroyed_acc_unused_funds_goes_to_correct_acc
(declared amount 2.0, transferred 1.5, logged entry 0.5).  After the
block, the calling account is destroyed with balance 0, each transfer
target is credited, and the sink receives the account's whole remaining
balance `balance − fee − transferred` (the logged unused amount plus
the rest of the balance moved by applying the `Destroy` entry), as
frozen by the repository's test destroyed_acc_is_indexed_correctly
(balance 4, fee 1, amount 2 fully transferred, sink credited 1). -/
def materializeDestroyTx (fromId : Nat) (fee amount : Int)
    (transfers : List (Nat × Int)) (sink : Nat) (balances : Nat → Int) :
    Option DestroyOutcome :=
  let bal := balances fromId
  let total := (transfers.map Prod.snd).sum
  let unusedAmt := amount - total
  let remaining := bal - fee - total
  if (∀ t ∈ transfers, 0 ≤ t.2 ∧ t.1 ≠ fromId) ∧ total ≤ amount
      ∧ amount + fee ≤ bal ∧ sink ≠ fromId then
    some
      { log :=
          transfers.map (fun t => LogEntry.transfer t.1 t.2)
            ++ [LogEntry.destroy sink]
            ++ (if 0 < unusedAmt then [LogEntry.transfer sink unusedAmt]
                else [])
        balances := fun id =>
          if id = fromId then 0
          else
            balances id
              + (((transfers.filter (fun t => t.1 == id)).map Prod.snd).sum)
              + (if id = sink then remaining else 0)
        fromDestroyed := true }
  else none

/-! ### Claim C1 -/

/-- C1 counterexample.  The claim states that whenever a scanned
signature pair's public key matches one of the popped keys but its
signature fails to verify, the check yields false immediately without
trying any further signature pairs.  At this input (threshold 2, popped
keys [3, 2] in pop order, pairs [(2, ok), (3, bad), (9, ok)] with cursor
0), the scanned pair at index 1 has public key 3, which is one of the
popped keys, and an invalid signature; the claim therefore requires the
check to stop with the cursor at 2.  The code instead skips that pair —
key 3 was already passed by its single forward key iterator — and keeps
scanning, leaving the cursor at 3 after consuming the final pair as
well. -/
theorem check_sigs_hard_fail_counterexample :
    (([⟨2, true⟩, ⟨3, false⟩, ⟨9, true⟩] : List SigPair).get? 1
        = some ⟨3, false⟩)
      ∧ 3 ∈ [3, 2]
      ∧ check_sigs 2 [3, 2] [⟨2, true⟩, ⟨3, false⟩, ⟨9, true⟩] 0 = (false, 3)
      ∧ ((false, 3) : Bool × Nat) ≠ (false, 2) := by
  decide

/-- C1 (amended): for every evaluation of `check_sigs` — the
implementation of OpCheckMultiSig on the popped key list: (i) threshold
0 yields true; (ii) threshold greater than the number of popped keys
yields false; and (iii) whenever the in-order scan reaches a pair whose
public key matches one of the keys not yet passed by the single forward
key iterator and whose signature fails to verify, the check yields false
immediately, the cursor stopping right after that pair so no further
signature pair is tried.  (A pair whose key matches only an
already-passed popped key is skipped rather than hard-failed.) -/
theorem check_sigs_threshold_and_hard_fail :
    (∀ (keys : List Nat) (pairs : List SigPair) (pos : Nat),
        check_sigs 0 keys pairs pos = (true, pos))
    ∧ (∀ (t : Nat) (keys : List Nat) (pairs : List SigPair) (pos : Nat),
        keys.length < t → check_sigs t keys pairs pos = (false, pos))
    ∧ (∀ (t : Nat) (keys ks : List Nat) (p : SigPair) (rest : List SigPair)
        (pos valid : Nat), consumeKeys keys p.pubKey = some ks →
        p.valid = false →
        scanPairs t keys (p :: rest) pos valid = (false, pos + 1)) := by
  refine ⟨?_, ?_, ?_⟩
  · intro keys pairs pos
    simp [check_sigs]
  · intro t keys pairs pos h
    have ht : t ≠ 0 := by omega
    simp only [check_sigs, if_neg ht]
    rw [if_pos]
    exact Or.inl h
  · intro t keys ks p rest pos valid hck hval
    simp [scanPairs, hck, hval]

/-- Witness for the amended C1 theorem: each conjunct applied at a
concrete input with its hypotheses discharged by evaluation. -/
theorem check_sigs_threshold_and_hard_fail_witness :
    check_sigs 0 [5] [⟨1, true⟩] 2 = (true, 2)
      ∧ check_sigs 2 [7] [⟨7, true⟩] 0 = (false, 0)
      ∧ scanPairs 1 [4] [⟨4, false⟩, ⟨4, true⟩] 0 0 = (false, 1) :=
  ⟨check_sigs_threshold_and_hard_fail.1 [5] [⟨1, true⟩] 2,
   check_sigs_threshold_and_hard_fail.2.1 2 [7] [⟨7, true⟩] 0 (by decide),
   check_sigs_threshold_and_hard_fail.2.2 1 [4] [] ⟨4, false⟩ [⟨4, true⟩] 0 0
     (by decide) (by decide)⟩

/-! ### Claim C4 -/

/-- C4 counterexample.  The claim states that exiting with the value
true but additional items still on the stack beneath it is not a
success.  The two-frame script [True, True] exits with the stack
[True, True]; the driver pops the top True and reports success with
value true while a second True remains on the stack beneath it. -/
theorem eval_true_residual_stack_counterexample :
    eval [Frame.ftrue, Frame.ftrue] [] = .ok (true, [Frame.ftrue], 0)
      ∧ ([Frame.ftrue] : Stack) ≠ [] := by
  constructor
  · simp [eval, evalLoop, pushFrame, popBool, MAX_STACK_DEPTH]
  · simp

/-- C4 (amended): script evaluation succeeds with value true exactly
when the loop exits normally (end of script or OpReturn with no open
OpIf) with the frame True on top of the stack; the driver pops that
frame, and any items remaining beneath it are left on the stack without
affecting the result. -/
theorem eval_true_iff_exit_top_true (ops : List Frame) (pairs : List SigPair)
    (st : Stack) (p : Nat) :
    eval ops pairs = .ok (true, st, p) ↔
      evalLoop ops [] pairs 0 0 false = .ok (.finished (Frame.ftrue :: st) p) := by
  unfold eval
  cases hE : evalLoop ops [] pairs 0 0 false with
  | error e => simp
  | ok ex =>
    cases ex with
    | earlyFalse s q => simp
    | finished s q =>
      cases s with
      | nil => simp [popBool]
      | cons f rest => cases f <;> simp [popBool]

/-! ### Claim C3 -/

theorem pairwise_rank_le_of_const {l : List IndexOp} {r : Nat}
    (h : ∀ x ∈ l, IndexOp.rank x = r) :
    l.Pairwise (fun a b => a.rank ≤ b.rank) := by
  induction l with
  | nil => exact List.Pairwise.nil
  | cons x xs ih =>
    refine List.Pairwise.cons ?_ (ih fun y hy => h y (List.mem_cons_of_mem _ hy))
    intro y hy
    rw [h x (List.mem_cons_self _ _), h y (List.mem_cons_of_mem _ hy)]

theorem pairwise_rank_append {l1 l2 : List IndexOp}
    (h1 : l1.Pairwise (fun a b => a.rank ≤ b.rank))
    (h2 : l2.Pairwise (fun a b => a.rank ≤ b.rank))
    (h : ∀ a ∈ l1, ∀ b ∈ l2, IndexOp.rank a ≤ IndexOp.rank b) :
    (l1 ++ l2).Pairwise (fun a b => a.rank ≤ b.rank) :=
  List.pairwise_append.mpr ⟨h1, h2, h⟩

/-- The operations of one committed batch appear in nondecreasing rank
order: block byte positions, then chain height, then owner, then token
supply, then accounts. -/
theorem commitOps_sorted (wb : WriteBatch) :
    wb.commitOps.Pairwise (fun a b => a.rank ≤ b.rank) := by
  unfold WriteBatch.commitOps
  have h1 : ∀ x ∈ wb.blockBytePos.map (fun hp => IndexOp.putBlockPos hp.1 hp.2),
      IndexOp.rank x = 0 := by
    intro x hx
    simp only [List.mem_map] at hx
    obtain ⟨hp, _, rfl⟩ := hx
    rfl
  have h2 : ∀ x ∈ (match wb.chainHeight with
      | some h => [IndexOp.putChainHeight h]
      | none => []), IndexOp.rank x = 1 := by
    cases wb.chainHeight <;> simp [IndexOp.rank]
  have h3 : ∀ x ∈ (if wb.owner then [IndexOp.putOwner] else []),
      IndexOp.rank x = 2 := by
    cases wb.owner <;> simp [IndexOp.rank]
  have h4 : ∀ x ∈ (match wb.tokenSupply with
      | some s => [IndexOp.putTokenSupply s]
      | none => []), IndexOp.rank x = 3 := by
    cases wb.tokenSupply <;> simp [IndexOp.rank]
  have h5 : ∀ x ∈ wb.accounts.map (fun id => IndexOp.putAccount id),
      IndexOp.rank x = 4 := by
    intro x hx
    simp only [List.mem_map] at hx
    obtain ⟨id, _, rfl⟩ := hx
    rfl
  simp only [List.append_assoc]
  refine pairwise_rank_append (pairwise_rank_le_of_const h1) ?_ ?_
  · refine pairwise_rank_append (pairwise_rank_le_of_const h2) ?_ ?_
    · refine pairwise_rank_append (pairwise_rank_le_of_const h3) ?_ ?_
      · refine pairwise_rank_append (pairwise_rank_le_of_const h4)
          (pairwise_rank_le_of_const h5) ?_
        intro a ha b hb
        rw [h4 a ha, h5 b hb]
        omega
      · intro a ha b hb
        rcases List.mem_append.mp hb with hb | hb
        · rw [h3 a ha, h4 b hb]; omega
        · rw [h3 a ha, h5 b hb]; omega
    · intro a ha b hb
      rcases List.mem_append.mp hb with hb | hb
      · rw [h2 a ha, h3 b hb]; omega
      rcases List.mem_append.mp hb with hb | hb
      · rw [h2 a ha, h4 b hb]; omega
      · rw [h2 a ha, h5 b hb]; omega
  · intro a ha b hb
    rcases List.mem_append.mp hb with hb | hb
    · rw [h1 a ha, h2 b hb]; omega
    rcases List.mem_append.mp hb with hb | hb
    · rw [h1 a ha, h3 b hb]; omega
    rcases List.mem_append.mp hb with hb | hb
    · rw [h1 a ha, h4 b hb]; omega
    · rw [h1 a ha, h5 b hb]; omega

theorem rank_of_isBlockPos {x : IndexOp} (h : x.isBlockPos = true) :
    x.rank = 0 := by
  cases x <;> simp_all [IndexOp.isBlockPos, IndexOp.rank]

theorem rank_of_isChainHeight {x : IndexOp} (h : x.isChainHeight = true) :
    x.rank = 1 := by
  cases x <;> simp_all [IndexOp.isChainHeight, IndexOp.rank]

theorem rank_of_isAccount {x : IndexOp} (h : x.isAccount = true) :
    x.rank = 4 := by
  cases x <;> simp_all [IndexOp.isAccount, IndexOp.rank]

/-- C3 counterexample.  The claim states that within the committed batch
the block byte offsets and the account updates come first and
`chain_height` is written after them.  For a batch holding a block byte
position, the chain height and an account record, `commit` adds the
operations in the order block position, chain height, account record:
the account update lands after the chain-height write, so the asserted
ordering is false. -/
theorem commit_height_before_accounts_counterexample :
    commitBatchExample.commitOps
        = [.putBlockPos 1 327, .putChainHeight 1, .putAccount 7]
      ∧ ¬ accountsBeforeHeight commitBatchExample.commitOps := by
  constructor
  · rfl
  · decide

/-- C3 (amended): all index writes for one block go through the single
write batch built by `WriteBatch::commit` (the `commitOps` list,
committed by the one `db.write` call), and within that batch every
block-byte-offset write precedes the `chain_height` write while every
account update follows it; the full group order is block byte positions,
chain height, network owner, token supply, account records. -/
theorem commit_single_batch_order (wb : WriteBatch)
    (i j : Fin wb.commitOps.length)
    (hi : (wb.commitOps.get i).isChainHeight = true) :
    ((wb.commitOps.get j).isBlockPos = true → j < i)
      ∧ ((wb.commitOps.get j).isAccount = true → i < j) := by
  have hs := List.pairwise_iff_get.mp (commitOps_sorted wb)
  constructor
  · intro hj
    rcases lt_trichotomy j i with hlt | heq | hgt
    · exact hlt
    · exfalso
      rw [heq] at hj
      have e1 := rank_of_isChainHeight hi
      have e2 := rank_of_isBlockPos hj
      omega
    · exfalso
      have := hs i j hgt
      rw [rank_of_isChainHeight hi, rank_of_isBlockPos hj] at this
      omega
  · intro hj
    rcases lt_trichotomy i j with hlt | heq | hgt
    · exact hlt
    · exfalso
      rw [heq] at hi
      have e1 := rank_of_isChainHeight hi
      have e2 := rank_of_isAccount hj
      omega
    · exfalso
      have := hs j i hgt
      rw [rank_of_isChainHeight hi, rank_of_isAccount hj] at this
      omega

/-- Witness for the amended C3 theorem, applied to the example batch:
the block-position write (index 0) precedes the chain-height write
(index 1), which precedes the account write (index 2). -/
theorem commit_single_batch_order_witness :
    ((⟨0, by decide⟩ : Fin commitBatchExample.commitOps.length)
        < (⟨1, by decide⟩ : Fin commitBatchExample.commitOps.length))
      ∧ ((⟨1, by decide⟩ : Fin commitBatchExample.commitOps.length)
        < (⟨2, by decide⟩ : Fin commitBatchExample.commitOps.length)) :=
  ⟨(commit_single_batch_order commitBatchExample ⟨1, by decide⟩ ⟨0, by decide⟩
      (by decide)).1 (by decide),
   (commit_single_batch_order commitBatchExample ⟨1, by decide⟩ ⟨2, by decide⟩
      (by decide)).2 (by decide)⟩

/-! ### Claim C5 -/

/-- C5: `purge_expired_txids` deletes exactly the entries whose expiry
timestamp is strictly below `now − TX_EXPIRY_ADJUSTMENT`; an entry
survives the purge precisely when it was present and its expiry is at
least `now − TX_EXPIRY_ADJUSTMENT`.  The hypothesis keeps the Nat
subtraction aligned with the u64 subtraction in the source. -/
theorem purge_expired_txids_mem (now : Nat) (entries : List (Nat × Nat))
    (hnow : TX_EXPIRY_ADJUSTMENT ≤ now) (kv : Nat × Nat) :
    kv ∈ purge_expired_txids now entries ↔
      kv ∈ entries ∧ ¬ kv.2 < now - TX_EXPIRY_ADJUSTMENT := by
  simp [purge_expired_txids, List.mem_filter]

/-- Witness for C5 at `now = 100` over two entries: the entry expiring
at 90 (≥ 70) survives and the entry expiring at 50 (< 70) is purged. -/
theorem purge_expired_txids_mem_witness :
    ((2, 90) ∈ purge_expired_txids 100 [(1, 50), (2, 90)]
        ↔ (2, 90) ∈ [(1, 50), (2, 90)] ∧ ¬ 90 < 100 - TX_EXPIRY_ADJUSTMENT)
      ∧ ((1, 50) ∈ purge_expired_txids 100 [(1, 50), (2, 90)]
        ↔ (1, 50) ∈ [(1, 50), (2, 90)] ∧ ¬ 50 < 100 - TX_EXPIRY_ADJUSTMENT) :=
  ⟨purge_expired_txids_mem 100 [(1, 50), (2, 90)] (by decide) (2, 90),
   purge_expired_txids_mem 100 [(1, 50), (2, 90)] (by decide) (1, 50)⟩

/-! ### Claim C10 -/

/-- C10: on a fresh index with no recorded state the read accessors
return zero defaults instead of failing — `get_chain_height` returns 0
when no chain-height key exists, and `get_token_supply` returns the zero
asset when no token-supply key exists. -/
theorem fresh_index_defaults :
    get_chain_height none = 0
      ∧ get_token_supply none = Asset.default
      ∧ Asset.default.amount = 0 :=
  ⟨rfl, rfl, rfl⟩

/-! ### Claim C6 -/

/-- C6: the canonical string round trip fails on the code.  For the
amount −100 (the asset −0.0100 GRAEL, any amount from −999 to −100
behaves the same) the amount string is the four characters -100, so
`to_string` takes its `len == MAX_PRECISION` branch, which prepends
0. without accounting for the sign and renders 0.-100 GRAEL;
`from_str` then strips the dot, fails to parse 0-100 as an i64 and
rejects the string with `InvalidAmount` instead of returning the
original asset.  The sibling `len < MAX_PRECISION` branch does handle
the sign, and both the specification and the source's round-trip test
vectors make the intent clear, so this is a slip in the code. -/
theorem asset_to_string_negative_roundtrip_bug :
    asset_to_string (-100)
        = ['0', '.', '-', '1', '0', '0', ' ', 'G', 'R', 'A', 'E', 'L']
      ∧ asset_from_str (asset_to_string (-100)) = .error .InvalidAmount
      ∧ asset_from_str (asset_to_string (-100)) ≠ .ok (-100) := by
  decide

/-! ### Claim C7 -/

/-- C7 counterexample.  The claim states that every input whose amount
part does not have exactly `MAX_PRECISION` digits after the decimal
point fails with `InvalidAmount`, and that parsing succeeds only with
exactly `MAX_PRECISION` digits after the point.  Two concrete inputs
refute it: 1.0.00 GRAEL parses successfully to amount 1000 although
only three digits follow its first decimal point (the code counts
characters, not digits, and strips every dot before the integer parse);
and a 33-character input with no decimal point at all fails with
`StrTooLarge`, not `InvalidAmount`, because the length check runs
first. -/
theorem from_str_decimal_digits_counterexample :
    asset_from_str ['1', '.', '0', '.', '0', '0', ' ', 'G', 'R', 'A', 'E', 'L']
        = .ok 1000
      ∧ ((['1', '.', '0', '.', '0', '0'].drop 2).filter
          (fun c => c.isDigit)).length = 3
      ∧ asset_from_str (List.replicate 27 '1' ++ (' ' :: ['G', 'R', 'A', 'E', 'L']))
        = .error .StrTooLarge
      ∧ (Except.error AssetErrorKind.StrTooLarge : Except AssetErrorKind Int)
        ≠ .error .InvalidAmount := by
  decide

/-- C7 (amended): for every input string of length at most
`MAX_STR_LEN`, if the amount part (the first space-separated token of
the trimmed input) contains no decimal point, or the number of
characters after its first decimal point (the source's `decimals`
count) is not exactly `MAX_PRECISION`, then `from_str` fails with error
kind `InvalidAmount`; and parsing succeeds only when the amount part
contains a decimal point with exactly `MAX_PRECISION` characters after
the first one.  (Those characters need not all be digits; longer inputs
fail with `StrTooLarge` before any amount inspection.) -/
theorem from_str_requires_exact_decimals :
    (∀ (s : List Char), s.length ≤ MAX_STR_LEN →
        (amountPart s).findIdx? (fun c => c == '.') = none →
        asset_from_str s = .error .InvalidAmount)
    ∧ (∀ (s : List Char) (pos : Nat), s.length ≤ MAX_STR_LEN →
        (amountPart s).findIdx? (fun c => c == '.') = some pos →
        decimalsOf (amountPart s) pos ≠ MAX_PRECISION →
        asset_from_str s = .error .InvalidAmount)
    ∧ (∀ (s : List Char) (a : Int), asset_from_str s = .ok a →
        ∃ pos, (amountPart s).findIdx? (fun c => c == '.') = some pos
          ∧ decimalsOf (amountPart s) pos = MAX_PRECISION) := by
  refine ⟨?_, ?_, ?_⟩
  · intro s hlen hdot
    unfold asset_from_str
    rw [if_neg (by omega)]
    simp only [hdot]
  · intro s pos hlen hdot hdec
    unfold asset_from_str
    rw [if_neg (by omega)]
    simp only [hdot]
    rw [if_pos hdec]
  · intro s a h
    unfold asset_from_str at h
    by_cases hlen : s.length > MAX_STR_LEN
    · rw [if_pos hlen] at h
      cases h
    · rw [if_neg hlen] at h
      cases hdot : (amountPart s).findIdx? (fun c => c == '.') with
      | none =>
        simp only [hdot] at h
        cases h
      | some pos =>
        simp only [hdot] at h
        by_cases hdec : decimalsOf (amountPart s) pos ≠ MAX_PRECISION
        · rw [if_pos hdec] at h
          cases h
        · exact ⟨pos, rfl, by omega⟩

/-- Witness for the amended C7 theorem: 1 GRAEL has no decimal point
and fails `InvalidAmount`; 1.0 GRAEL has one character after the point
and fails `InvalidAmount`; 1.0000 GRAEL parses to 10000, so its amount
part has a decimal point with exactly four characters after it. -/
theorem from_str_requires_exact_decimals_witness :
    asset_from_str ['1', ' ', 'G', 'R', 'A', 'E', 'L'] = .error .InvalidAmount
      ∧ asset_from_str ['1', '.', '0', ' ', 'G', 'R', 'A', 'E', 'L']
        = .error .InvalidAmount
      ∧ ∃ pos,
          (amountPart ['1', '.', '0', '0', '0', '0', ' ', 'G', 'R', 'A', 'E', 'L']).findIdx?
              (fun c => c == '.') = some pos
            ∧ decimalsOf
                (amountPart ['1', '.', '0', '0', '0', '0', ' ', 'G', 'R', 'A', 'E', 'L'])
                pos = MAX_PRECISION :=
  ⟨from_str_requires_exact_decimals.1 ['1', ' ', 'G', 'R', 'A', 'E', 'L']
      (by decide) (by decide),
   from_str_requires_exact_decimals.2.1 ['1', '.', '0', ' ', 'G', 'R', 'A', 'E', 'L']
      1 (by decide) (by decide) (by decide),
   from_str_requires_exact_decimals.2.2
      ['1', '.', '0', '0', '0', '0', ' ', 'G', 'R', 'A', 'E', 'L'] 10000 (by decide)⟩

/-! ### Claim C2 -/

/-- C2 counterexample.  The claim requires one residue value to appear
both as the amount of the third log entry `Transfer(B, residue)` and as
the increase of B's balance after the block.  At the scenario of the
repository's receipt-log test (accounts A = 1, B = 2, C = 3 with
balances 4.00000, fee 1.00000, declared amount 2.00000, transfer
1.50000 to C, destroy to B; minor units at five decimal places) the
third log entry is `Transfer(B, 0.50000)` — the unused declared amount,
as the test freezes it — while B's balance grows by 1.50000 (the
account's whole remaining balance, as the companion indexing test
freezes it), and 0.5 ≠ 1.5, so no residue satisfies the claim. -/
theorem destroy_residue_claim_counterexample :
    ¬ ∃ r : Int,
        (materializeDestroyTx 1 100000 200000 [(3, 150000)] 2
            (fun _ => (400000 : Int))).map DestroyOutcome.log
          = some [LogEntry.transfer 3 150000, LogEntry.destroy 2,
                  LogEntry.transfer 2 r]
        ∧ (materializeDestroyTx 1 100000 200000 [(3, 150000)] 2
            (fun _ => (400000 : Int))).map (fun o => o.balances 2)
          = some (400000 + r) := by
  rintro ⟨r, hlog, hbal⟩
  have h1 : (materializeDestroyTx 1 100000 200000 [(3, 150000)] 2
      (fun _ => (400000 : Int))).map DestroyOutcome.log
      = some [LogEntry.transfer 3 150000, LogEntry.destroy 2,
              LogEntry.transfer 2 50000] := by
    decide
  have h2 : (materializeDestroyTx 1 100000 200000 [(3, 150000)] 2
      (fun _ => (400000 : Int))).map (fun o => o.balances 2)
      = some (550000 : Int) := by
    decide
  rw [h1] at hlog
  rw [h2] at hbal
  simp only [Option.some.injEq, List.cons.injEq, LogEntry.transfer.injEq,
    true_and, and_true] at hlog hbal
  omega

/-- C2 (amended): for every account A with balance 4.00000 and a
transaction of fee 1.00000 and declared amount 2.00000 (minor units at
five decimal places, as in the repository's receipt-log test) whose
script transfers 1.50000 to a distinct account C and then destroys A
with a distinct sink account B, the accepted transaction's receipt log
is exactly [Transfer(C, 1.5), Destroy(B), Transfer(B, 0.5)] in that
order — the third entry carrying the unused declared amount
2.0 − 1.5 — and after the block is applied A.destroyed = true,
A.balance = 0, C's balance has increased by 1.5 and B's by 1.5, the
account's whole remaining balance (the logged 0.5 plus the 1.0 the
Destroy entry moves). -/
theorem transfer_destroy_residue_log (A B C : Nat) (f : Nat → Int)
    (hAB : A ≠ B) (hAC : A ≠ C) (hBC : B ≠ C) (hbal : f A = 400000) :
    ∃ out, materializeDestroyTx A 100000 200000 [(C, 150000)] B f = some out
      ∧ out.log = [LogEntry.transfer C 150000, LogEntry.destroy B,
                   LogEntry.transfer B 50000]
      ∧ out.fromDestroyed = true
      ∧ out.balances A = 0
      ∧ out.balances C = f C + 150000
      ∧ out.balances B = f B + 150000 := by
  have hCA : C ≠ A := fun h => hAC h.symm
  have hBA : B ≠ A := fun h => hAB h.symm
  have hCB : C ≠ B := fun h => hBC h.symm
  unfold materializeDestroyTx
  rw [if_pos]
  · refine ⟨_, rfl, ?_, rfl, ?_, ?_, ?_⟩
    · simp
    · simp
    · simp [hCA, hCB]
    · simp [hBA, hCB, hbal]
  · refine ⟨?_, by norm_num, ?_, hBA⟩
    · intro t ht
      simp only [List.mem_singleton] at ht
      subst ht
      exact ⟨by norm_num, hCA⟩
    · simp [hbal]

/-- Witness for the amended C2 theorem at accounts A = 1, B = 2, C = 3
all starting with balance 400000 minor units. -/
theorem transfer_destroy_residue_log_witness :
    ∃ out, materializeDestroyTx 1 100000 200000 [(3, 150000)] 2
        (fun _ => (400000 : Int)) = some out
      ∧ out.log = [LogEntry.transfer 3 150000, LogEntry.destroy 2,
                   LogEntry.transfer 2 50000]
      ∧ out.fromDestroyed = true
      ∧ out.balances 1 = 0
      ∧ out.balances 3 = 400000 + 150000
      ∧ out.balances 2 = 400000 + 150000 :=
  transfer_destroy_residue_log 1 2 3 (fun _ => (400000 : Int))
    (by decide) (by decide) (by decide) rfl

/-! ### Claim C8 -/

/-- C8: transaction verification rejects with `TxExpired` on both sides
of the time window — a timestamp beyond `now + MAX_TX_DRIFT` (too far
in the future), and a timestamp whose expiry window has passed
(`ts + TX_EXPIRY_TIME ≤ now`), for every value of the `TX_EXPIRY_TIME`
constant. -/
theorem tx_expiry_both_sides :
    (∀ (e ts now : Nat), now + MAX_TX_DRIFT < ts →
        tx_expiry_check e ts now = some .TxExpired)
      ∧ (∀ (e ts now : Nat), ts + e ≤ now →
        tx_expiry_check e ts now = some .TxExpired) := by
  constructor
  · intro e ts now h
    simp [tx_expiry_check, h]
  · intro e ts now h
    unfold tx_expiry_check
    by_cases hd : ts > now + MAX_TX_DRIFT
    · rw [if_pos hd]
    · rw [if_neg hd, if_pos h]

/-- Witness for C8: a timestamp 10000 at time 1 is beyond the drift
bound 3001 and rejects; a timestamp 0 with expiry window 5 at time 10
has expired and rejects. -/
theorem tx_expiry_both_sides_witness :
    tx_expiry_check 30000 10000 1 = some .TxExpired
      ∧ tx_expiry_check 5 0 10 = some .TxExpired :=
  ⟨tx_expiry_both_sides.1 30000 10000 1 (by decide),
   tx_expiry_both_sides.2 5 0 10 (by decide)⟩

/-! ### Claim C9 -/

/-- C9: broadcasting the same signed transaction twice produces exactly
one accepted transaction — any broadcast whose TxId is already present
in the indexer's expiry set is rejected with `TxDupe` and leaves the
set unchanged, and after a fresh TxId's broadcast is accepted (which
inserts it into the set), an immediate rebroadcast of the same TxId is
rejected with `TxDupe`. -/
theorem broadcast_dupe_rejected :
    (∀ (st : List (Nat × Nat)) (id e : Nat), has_txid st id = true →
        broadcast_tx st id e = (.rejected .TxDupe, st))
      ∧ (∀ (st : List (Nat × Nat)) (id e1 e2 : Nat), has_txid st id = false →
        (broadcast_tx st id e1).1 = .accepted
          ∧ (broadcast_tx (broadcast_tx st id e1).2 id e2).1
            = .rejected .TxDupe) := by
  constructor
  · intro st id e h
    simp [broadcast_tx, h]
  · intro st id e1 e2 h
    constructor
    · simp [broadcast_tx, h]
    · have h2 : (List.lookup id st).isSome = false := by
        simpa [has_txid] using h
      simp [broadcast_tx, has_txid, insert_txid, h2, List.lookup]

/-- Witness for C9: TxId 5 broadcast twice against an empty expiry set
is accepted once and rejected with `TxDupe` the second time; against a
set already holding TxId 5 it is rejected immediately. -/
theorem broadcast_dupe_rejected_witness :
    broadcast_tx [(5, 9)] 5 11 = (.rejected .TxDupe, [(5, 9)])
      ∧ (broadcast_tx [] 5 9).1 = .accepted
      ∧ (broadcast_tx (broadcast_tx [] 5 9).2 5 11).1 = .rejected .TxDupe :=
  ⟨broadcast_dupe_rejected.1 [(5, 9)] 5 11 (by decide),
   (broadcast_dupe_rejected.2 [] 5 9 11 (by decide)).1,
   (broadcast_dupe_rejected.2 [] 5 9 11 (by decide)).2⟩

end Godcoin
